import Mathlib

/-!
Shallow embedding of FerretDB's query-translation and result-streaming layer:

* `internal/handlers/pg/pgdb/query.go` — `Explain`, `QueryDocuments`,
  `buildIterator`, `prepareWhereClause` (the filter compiler for the
  PostgreSQL backend);
* the Tigris backend's `queryIterator` (`newQueryIterator`, `Next`, `Close`,
  `close`).

Pure functions are embedded as Lean functions; stateful code is embedded as
explicit state passing.  External collaborators (`pjson`, `tjson`, the pgx /
Tigris drivers, metadata lookup) are abstracted as environment records or,
where the spec is the only description available, modelled from the spec and
marked as such.
-/

/-! ## Data model: `types` values and documents

`types.Document` values: exactly the 13 kinds handled by the type switches in
`prepareWhereClause`.  Payloads that the code under verification never
inspects (float64 contents, binary blobs, object ids, time instants) are
represented by opaque `Nat`/`Int`/`String` tokens: the compiler only passes
them to the (abstracted) `pjson` marshaller.
-/

inductive Value where
  /-- `*types.Document`: ordered key/value list (nested document). -/
  | document (pairs : List (String × Value))
  /-- `*types.Array`. -/
  | array (elems : List Value)
  /-- `types.Binary` (opaque payload). -/
  | binary (b : Nat)
  /-- `types.NullType`. -/
  | null
  /-- `types.Regex`. -/
  | regex (pattern options : String)
  /-- `types.Timestamp` (backend-internal timestamp marker). -/
  | timestamp (t : Nat)
  /-- `float64` (payload opaque: never inspected by the compiler). -/
  | double (bits : Nat)
  /-- `string`. -/
  | string (s : String)
  /-- `types.ObjectID` (opaque payload). -/
  | objectID (oid : Nat)
  /-- `bool`. -/
  | bool (b : Bool)
  /-- `time.Time` (opaque instant). -/
  | datetime (t : Nat)
  /-- `int32`. -/
  | int32 (n : Int)
  /-- `int64`. -/
  | int64 (n : Int)

/-- `*types.Document` at top level: an ordered mapping from string keys to
values; iteration follows list order, mirroring `types.Document.Iterator`.
A `nil` Go document iterates zero entries, i.e. behaves as `[]`. -/
abbrev Document := List (String × Value)

/-! ## `types.NewPathFromString`

The `types` package is not part of the two translated source units; the spec
describes it in §3.
-/

/-- Error codes of `types.DocumentPathError`.  The spec distinguishes the
"empty key" code from other malformed forms. -/
inductive DocumentPathErrorCode where
  | emptyKey
  | otherMalformed
deriving DecidableEq, Repr

/-- `*types.DocumentPathError`: structured path-parsing error. -/
structure DocumentPathError where
  code : DocumentPathErrorCode
deriving DecidableEq, Repr

/-- `strings.Split(s, ".")` on the character list of a string: the same
segments, including empty ones around consecutive or border dots. -/
def splitOnDotChars : List Char → List (List Char)
  | [] => [[]]
  | c :: cs =>
    if c = '.' then [] :: splitOnDotChars cs
    else
      match splitOnDotChars cs with
      | seg :: segs => (c :: seg) :: segs
      | [] => [[c]]

/-- `strings.HasPrefix(s, "$")`: does the key start with the directive
sentinel character? -/
def startsWithDollar (s : String) : Bool :=
  match s.data with
  | c :: _ => c = '$'
  | [] => false

/-- Modelled from the spec: `types.NewPathFromString` parses "a dot-separated
sequence of one or more non-empty key segments"; "parsing a path from a
string fails with a structured error distinguishing `empty key` from other
malformed forms".  Splitting on `.` and rejecting any empty segment with the
"empty key" code realises exactly that; the path's `Len()` is the number of
segments. -/
def NewPathFromString (s : String) : Except DocumentPathError (List String) :=
  let parts := (splitOnDotChars s.data).map (fun cs => String.mk cs)
  if parts.any (fun e => e = "") then
    .error { code := .emptyKey }
  else
    .ok parts

/-! ## Placeholder allocator and compiler environment -/

/-- `pgdb.Placeholder` (spec §4.1).  Modelled from the spec: "Stateful counter
starting at the backend's first parameter index; `next()` returns the current
backend-native placeholder token (e.g., an incrementing positional marker)
and advances the counter."  PostgreSQL's first parameter index is 1 and its
positional marker for index n is `$n`. -/
structure Placeholder where
  counter : Nat := 1
deriving DecidableEq, Repr

/-- `Placeholder.Next`: the current token, and the advanced allocator. -/
def Placeholder.Next (p : Placeholder) : String × Placeholder :=
  ("$" ++ toString p.counter, { counter := p.counter + 1 })

/-- Abstracted `pjson` codec functions used by `prepareWhereClause`:
`pjson.MarshalSingleValue` (single-value on-disk encoding; `must.NotFail`
makes it total here) and `pjson.GetTypeOfValue` (the recorded type tag of a
value). Both live outside the translated source units. -/
structure CompilerEnv where
  marshalSingleValue : Value → String
  getTypeOfValue : Value → String

/-- The accumulator of `prepareWhereClause`'s loop: the local variables
`filters`, `args` and the placeholder allocator `p`. -/
structure CompileState where
  filters : List String
  args : List String
  p : Placeholder
deriving DecidableEq, Repr

/-- Is this value in the pushdown-eligible scalar case list
`float64, string, types.ObjectID, bool, time.Time, int32, int64`
of `prepareWhereClause`'s type switches? -/
def isPushdownScalar : Value → Bool
  | .double _ | .string _ | .objectID _ | .bool _ | .datetime _
  | .int32 _ | .int64 _ => true
  | _ => false

/-- Emission of the `$eq` / direct-scalar containment predicate
(`query.go` lines 275–278 and 316–319, same code in both places):
`fmt.Sprintf("_jsonb->%[1]s @> %[2]s", p.Next(), p.Next())` appended to
`filters`, and `rootKey` plus the marshalled value appended to `args`. -/
def appendEqFilter (env : CompilerEnv) (st : CompileState) (rootKey : String)
    (v : Value) : CompileState :=
  let (ph1, p1) := st.p.Next
  let (ph2, p2) := p1.Next
  { filters := st.filters ++ ["_jsonb->" ++ ph1 ++ " @> " ++ ph2]
    args := st.args ++ [rootKey, env.marshalSingleValue v]
    p := p2 }

/-- Emission of the `$ne` negated compound predicate (`query.go` lines
289–299): the formatted SQL conjoins key existence (`_jsonb ? $k`),
containment equality (`_jsonb->$k @> $v`) and type-tag equality
(`_jsonb->'$s'->'p'->$k->'t' = '"tag"'`), all under `NOT ( ... )`. -/
def appendNeFilter (env : CompilerEnv) (st : CompileState) (rootKey : String)
    (v : Value) : CompileState :=
  let (ph1, p1) := st.p.Next
  let (ph2, p2) := p1.Next
  { filters := st.filters ++
      ["NOT ( _jsonb ? " ++ ph1 ++ " AND _jsonb->" ++ ph1 ++ " @> " ++ ph2 ++
        " AND _jsonb->\x27$s\x27->\x27p\x27->" ++ ph1 ++
        "->\x27t\x27 = \x27\"" ++ env.getTypeOfValue v ++ "\"\x27 )"]
    args := st.args ++ [rootKey, env.marshalSingleValue v]
    p := p2 }

/-- One iteration of the sub-document loop of `prepareWhereClause`
(`query.go` lines 267–307): dispatch on the inner operator key `k`.
The Go `default:` branches of the two inner type switches panic on a value
outside the 13 enumerated kinds; `Value` is closed over exactly those kinds,
so the panic branch has no counterpart here. -/
def processOperatorEntry (env : CompilerEnv) (rootKey : String)
    (st : CompileState) (k : String) (v : Value) : CompileState :=
  if k = "$eq" then
    match v with
    | .document _ | .array _ | .binary _ | .null | .regex _ _ | .timestamp _ =>
      -- type not supported for pushdown
      st
    | _ => appendEqFilter env st rootKey v
  else if k = "$ne" then
    match v with
    | .document _ | .array _ | .binary _ | .null | .regex _ _ | .timestamp _ =>
      -- type not supported for pushdown
      st
    | _ => appendNeFilter env st rootKey v
  else
    -- any other operator: continue (reserved, e.g. future $gt / $lt)
    st

/-- The value switch of `prepareWhereClause`'s root loop (`query.go` lines
251–323): a sub-document is scanned for operators; a directly attached
non-pushable value is skipped; a directly attached pushdown-eligible scalar
emits a containment predicate. -/
def processRootValue (env : CompilerEnv) (st : CompileState)
    (rootKey : String) (v : Value) : CompileState :=
  match v with
  | .document pairs =>
    pairs.foldl (fun st kv => processOperatorEntry env rootKey st kv.1 kv.2) st
  | .array _ | .binary _ | .null | .regex _ _ | .timestamp _ =>
    -- type not supported for pushdown
    st
  | _ => appendEqFilter env st rootKey v

/-- One iteration of the root loop of `prepareWhereClause` (`query.go` lines
217–324): skip `$`-prefixed directive keys; parse the key as a path, skipping
dotted paths, ignoring the "empty key" parse error (control falls through to
the value switch) and propagating any other path error. -/
def processRootEntry (env : CompilerEnv) (st : CompileState)
    (kv : String × Value) : Except DocumentPathError CompileState :=
  if startsWithDollar kv.1 then
    -- don't pushdown $comment and other directives
    .ok st
  else
    match NewPathFromString kv.1 with
    | .ok path =>
      if 1 < path.length then
        -- dotted path: nested-field pushdown unsupported
        .ok st
      else
        .ok (processRootValue env st kv.1 kv.2)
    | .error pe =>
      if pe.code ≠ .emptyKey then
        -- propagated (wrapped by lazyerrors at the call site)
        .error pe
      else
        -- ignore empty key error; the entry is still processed below
        .ok (processRootValue env st kv.1 kv.2)

/-- `pgdb.prepareWhereClause` (`query.go` lines 208–332): fold the root loop
over the filter document (a `nil` filter is the empty list), then join the
collected predicates: empty means no `WHERE` clause at all. -/
def prepareWhereClause (env : CompilerEnv) (sqlFilters : Document) :
    Except DocumentPathError (String × List String) :=
  match sqlFilters.foldlM (processRootEntry env) ⟨[], [], {}⟩ with
  | .error e => .error e
  | .ok st =>
    .ok
      (if st.filters = [] then ""
        else " WHERE " ++ String.intercalate " AND " st.filters,
      st.args)

/-! ## pg query executor: `Explain`, `QueryDocuments`, `buildIterator`

Errors here are Go `error` values; `lazyerrors.Error` wraps an error with
call-site context, embedded as the `lazy` constructor.  `CollectionExists`,
`newMetadata(...).getTableName` and the pgx driver are outside the translated
units; their results enter as environment fields.
-/

/-- pg-side errors. `tableNotExist` is `pgdb.ErrTableNotExist`; `path` injects
a filter-compilation error; `backend` is an opaque driver/metadata error;
`lazy` is `lazyerrors.Error` wrapping. -/
inductive PgError where
  | tableNotExist
  | path (e : DocumentPathError)
  | backend (code : Nat)
  | lazy (e : PgError)
deriving DecidableEq, Repr

/-- `errors.Is(err, ErrTableNotExist)`: true when the error is
`ErrTableNotExist` under any number of wrappings. -/
def PgError.isTableNotExist : PgError → Bool
  | .tableNotExist => true
  | .lazy e => e.isTableNotExist
  | _ => false

/-- `pgdb.QueryParams` (`query.go` lines 42–49).  A `nil` filter is the empty
document. -/
structure QueryParams where
  filter : Document
  db : String
  collection : String
  comment : String
  explain : Bool

/-- The relational backend's result iterator handle, as far as this layer
sees it.  Modelled from the spec: the pg `newIterator` is not among the
translated source units; §4.3 says a missing collection yields "an iterator
that is already exhausted (zero results)".  `rows = none` embeds the
`newIterator(ctx, nil)` case of `query.go` line 139. -/
structure PgIterator where
  rows : Option (List Document)

/-- Modelled from the spec: pg `newIterator` wraps the given rows; with `nil`
rows the iterator is already done. -/
def newIterator (rows : Option (List Document)) : PgIterator :=
  { rows := rows }

/-- Result signal of the pg iterator's `Next`. -/
inductive PgNextError where
  | iteratorDone
  | backend (code : Nat)
deriving DecidableEq, Repr

/-- Modelled from the spec: the pg iterator's `Next` pulls the next decoded
document with its zero-based index, or reports exhaustion; an iterator over
`nil` rows "immediately reports exhaustion". -/
def PgIterator.Next (it : PgIterator) (idx : Nat) :
    Except PgNextError (Nat × Document) :=
  match it.rows with
  | none => .error .iteratorDone
  | some [] => .error .iteratorDone
  | some (d :: _) => .ok (idx, d)

/-- `pgx.Identifier.Sanitize` (external pgx library): each part is quoted
with `"` and internal quotes are doubled; parts are joined with `.`. -/
def sanitizeIdentifier (parts : List String) : String :=
  String.intercalate "." (parts.map (fun s => "\"" ++ s.replace "\"" "\"\"" ++ "\""))

/-- The comment sanitization of `Explain` / `buildIterator` (`query.go` lines
75–81 and 178–184): `/*` ↦ `/ *`, then `*/` ↦ `* /`. -/
def sanitizeComment (c : String) : String :=
  (c.replace "/*" "/ *").replace "*/" "* /"

/-- The query-text assembly shared by `Explain` and `buildIterator`
(`query.go` lines 67–90 / 170–193): optional `EXPLAIN` prefix, projection of
`_jsonb`, optional sanitized comment, qualified source reference, then the
compiled `WHERE` clause is appended by the caller. -/
def assembleQueryPrefix (explain : Bool) (comment db table : String) : String :=
  (if explain then "EXPLAIN (VERBOSE true, FORMAT JSON) " else "") ++
    "SELECT _jsonb " ++
    (if comment ≠ "" then "/* " ++ sanitizeComment comment ++ " */ " else "") ++
    " FROM " ++ sanitizeIdentifier [db, table]

/-- External collaborators of the pg executor: the metadata lookups and the
execution of the assembled query against the open transaction.
`collectionExists` is `pgdb.CollectionExists`; `getTableName` is
`newMetadata(tx, db, collection).getTableName`; `execute` stands for
`tx.Query` + row scan (for `Explain`: JSON plan decode and conversion, for
`buildIterator`: wrapping rows in the pg iterator). -/
structure PgEnv where
  collectionExists : Except PgError Bool
  getTableName : Except PgError String
  executeExplain : String → List String → Except PgError Document
  executeQuery : String → List String → Except PgError (List Document)
  compilerEnv : CompilerEnv

/-- `pgdb.Explain` (`query.go` lines 52–125): existence check (a missing
collection is a wrapped `ErrTableNotExist` fault), table-name lookup, query
assembly, filter compilation, then execution and plan decoding (abstracted
into `executeExplain`). -/
def Explain (env : PgEnv) (qp : QueryParams) : Except PgError Document :=
  match env.collectionExists with
  | .error e => .error (.lazy e)
  | .ok false => .error (.lazy .tableNotExist)
  | .ok true =>
    match env.getTableName with
    | .error e => .error (.lazy e)
    | .ok table =>
      match prepareWhereClause env.compilerEnv qp.filter with
      | .error e => .error (.lazy (.path e))
      | .ok (whereClause, args) =>
        env.executeExplain
          (assembleQueryPrefix qp.explain qp.comment qp.db table ++ whereClause)
          args

/-- `pgdb.buildIterator` (`query.go` lines 169–205): assemble the query (the
`forUpdate` variant adds ` FOR UPDATE`), run it, and wrap the rows in an
iterator. -/
def buildIterator (env : PgEnv) (schema table comment : String)
    (explain : Bool) (filter : Document) (forUpdate : Bool) :
    Except PgError PgIterator :=
  match prepareWhereClause env.compilerEnv filter with
  | .error e => .error (.lazy (.path e))
  | .ok (whereClause, args) =>
    match
      env.executeQuery
        (assembleQueryPrefix explain comment schema table ++ whereClause ++
          (if forUpdate then " FOR UPDATE" else ""))
        args
    with
    | .error e => .error (.lazy e)
    | .ok rows => .ok (newIterator (some rows))

/-- `pgdb.QueryDocuments` (`query.go` lines 132–156): a table-name lookup
failing with `ErrTableNotExist` yields `newIterator(ctx, nil)` and a `nil`
error; any other lookup failure is wrapped and returned; otherwise the built
iterator is returned. -/
def QueryDocuments (env : PgEnv) (qp : QueryParams) :
    Except PgError PgIterator :=
  match env.getTableName with
  | .ok table =>
    buildIterator env qp.db table qp.comment qp.explain qp.filter false
  | .error e =>
    if e.isTableNotExist then .ok (newIterator none)
    else .error (.lazy e)

/-! ## Tigris `queryIterator` (`tigrisdb`, src/unnamed/part_000)

The iterator wraps a `driver.Iterator`; its mutable fields (`iter`, `schema`)
are embedded as an explicit state record, and each call to `Next` takes the
current value of `ctx.Err()` as an input (the context is external, mutable
state).  The pprof profile registration and the `runtime.SetFinalizer` leak
detector are process-level debugging facilities with no effect on the
iterator's observable protocol; the one observable resource action — the
underlying `driver.Iterator.Close()` call — is tracked by the ghost counter
`closeCalls`.
-/

/-- A raw `driver.Document` (opaque payload, only passed to `tjson`). -/
abbrev DriverDocument := Nat

/-- A `*tjson.Schema` pointer: `none` is Go `nil` (the zero value assigned
when `RefreshCollectionSchema` fails). -/
abbrev TjsonSchema := Option Nat

/-- The Tigris `driver.Iterator` as observed through `Next(&doc)` / `Err()` /
`Close()`: the remaining raw documents, and the error `Err()` reports once
`Next` returns false (`none` = natural end of the stream).
`invalidArg` records whether `IsInvalidArgument` holds for that error. -/
structure DriverError where
  code : Nat
  invalidArg : Bool
deriving DecidableEq, Repr

structure DriverIterator where
  docs : List DriverDocument
  err : Option DriverError
deriving DecidableEq, Repr

/-- `context.Canceled` / `context.DeadlineExceeded`: the non-nil results of
`ctx.Err()`. -/
inductive CtxError where
  | canceled
  | deadlineExceeded
deriving DecidableEq, Repr

/-- The error component of `queryIterator.Next`'s result:
`iterator.ErrIteratorDone`, a context error returned verbatim, or a failure
wrapped by `lazyerrors.Error`. -/
inductive IterFailure where
  | driver (e : DriverError)
  | refresh (e : Nat)
  | unmarshal (e : Nat)
deriving DecidableEq, Repr

inductive NextError where
  | iteratorDone
  | ctxErr (e : CtxError)
  | lazy (e : IterFailure)
deriving DecidableEq, Repr

/-- `queryIterator`'s mutable state: the cached schema and the wrapped driver
iterator (`none` = the Closed state, Go `iter.iter == nil`).  `closeCalls` is
a ghost counter of how many times the underlying `driver.Iterator.Close()`
has been invoked; it exists only to state resource-release properties. -/
structure QueryIterator where
  schema : TjsonSchema
  iter : Option DriverIterator
  closeCalls : Nat
deriving DecidableEq, Repr

/-- `newQueryIterator`: wraps a driver iterator with its schema; the profile
registration and finalizer installation are not modelled. -/
def newQueryIterator (schema : TjsonSchema) (titer : DriverIterator) :
    QueryIterator :=
  { schema := schema, iter := some titer, closeCalls := 0 }

/-- `queryIterator.close` (part_000 lines 158–168): profile removal and
finalizer disarming (no-ops here), then the underlying `Close()` — invoked
only when `iter.iter != nil` — and the transition to Closed. -/
def QueryIterator.close (it : QueryIterator) : QueryIterator :=
  match it.iter with
  | some _ => { it with iter := none, closeCalls := it.closeCalls + 1 }
  | none => it

/-- `queryIterator.Close` (part_000 lines 148–153): take the lock (the
embedding is sequential) and `close`. -/
def QueryIterator.Close (it : QueryIterator) : QueryIterator :=
  it.close

/-- External collaborators of `Next`: `tjson.Unmarshal` (decode a raw record
with a schema) and `TigrisDB.RefreshCollectionSchema` (returns a schema
pointer and an error, mirroring Go's two return values: on error the schema
assigned to the iterator is `nil`). -/
structure TigrisEnv where
  unmarshal : DriverDocument → TjsonSchema → Except Nat Document
  refreshSchema : TjsonSchema × Option Nat

/-- The full outcome of one `Next` call: the post-state, the returned triple
(Go `(struct{}, *types.Document, error)` becomes
`Except NextError (Unit × Document)`), and ghost counts of how many
`tjson.Unmarshal` and `RefreshCollectionSchema` invocations the call made. -/
structure NextOutcome where
  state : QueryIterator
  res : Except NextError (Unit × Document)
  decodes : Nat
  refreshes : Nat

/-- `queryIterator.Next` (part_000 lines 91–145), with `ctxErr` the value of
`iter.ctx.Err()` at the head of the call:

1. if already closed, `ErrIteratorDone` (the context error, if any, is
   ignored);
2. else a non-nil context error is returned verbatim;
3. else advance the driver iterator: on failure, a nil or invalid-argument
   `Err()` closes the iterator and reports `ErrIteratorDone` (skipping
   type-mismatch schema errors), while any other error is returned wrapped
   (the iterator stays open);
4. on success, decode with the cached schema; on decode failure refresh the
   schema once and retry once: a refresh failure or second decode failure is
   returned wrapped. -/
def QueryIterator.Next (env : TigrisEnv) (ctxErr : Option CtxError)
    (it : QueryIterator) : NextOutcome :=
  match it.iter with
  | none =>
    { state := it, res := .error .iteratorDone, decodes := 0, refreshes := 0 }
  | some di =>
    match ctxErr with
    | some e =>
      { state := it, res := .error (.ctxErr e), decodes := 0, refreshes := 0 }
    | none =>
      match di.docs with
      | [] =>
        match di.err with
        | some e =>
          if e.invalidArg then
            -- skip errors from filtering different types, then close
            { state := it.close, res := .error .iteratorDone,
              decodes := 0, refreshes := 0 }
          else
            { state := it, res := .error (.lazy (.driver e)),
              decodes := 0, refreshes := 0 }
        | none =>
          -- natural end: close so a later cancellation cannot change the
          -- next error from ErrIteratorDone to context.Canceled
          { state := it.close, res := .error .iteratorDone,
            decodes := 0, refreshes := 0 }
      | d :: rest =>
        let it1 : QueryIterator := { it with iter := some { di with docs := rest } }
        match env.unmarshal d it.schema with
        | .ok doc =>
          { state := it1, res := .ok ((), doc), decodes := 1, refreshes := 0 }
        | .error _ =>
          let (s2, rerr) := env.refreshSchema
          let it2 : QueryIterator := { it1 with schema := s2 }
          match rerr with
          | some e =>
            { state := it2, res := .error (.lazy (.refresh e)),
              decodes := 1, refreshes := 1 }
          | none =>
            match env.unmarshal d s2 with
            | .ok doc =>
              { state := it2, res := .ok ((), doc), decodes := 2, refreshes := 1 }
            | .error e =>
              { state := it2, res := .error (.lazy (.unmarshal e)),
                decodes := 2, refreshes := 1 }

/-- An externally observable operation on one iterator: a `Next` call in a
given environment and context condition, or a `Close` call. -/
inductive IterOp where
  | next (env : TigrisEnv) (ctxErr : Option CtxError)
  | close

/-- Apply one operation to the iterator state. -/
def applyOp (it : QueryIterator) : IterOp → QueryIterator
  | .next env c => (QueryIterator.Next env c it).state
  | .close => it.Close

/-- Apply a sequence of operations in order. -/
def applyOps (it : QueryIterator) (ops : List IterOp) : QueryIterator :=
  ops.foldl applyOp it

/-! ## Skip classification and concrete instantiations

The remaining definitions classify filter entries for the conservative
pushdown statement and give concrete instantiations of the abstracted
collaborators, used to evaluate the embedded code on concrete inputs.
-/

/-- Is this directly attached value in the non-pushable case list
`*types.Array, types.Binary, types.NullType, types.Regex, types.Timestamp`
of the root value switch (`query.go` line 310)? -/
def isNonPushdownRootValue : Value → Bool
  | .array _ | .binary _ | .null | .regex _ _ | .timestamp _ => true
  | _ => false

/-- A top-level filter entry that the root loop skips outright: a directive
key (leading `$`), a key parsing to a dotted path of more than one segment,
or a directly attached non-pushable value. -/
def isSkippedEntry (kv : String × Value) : Bool :=
  startsWithDollar kv.1 ||
    (match NewPathFromString kv.1 with
      | .ok path => decide (1 < path.length)
      | .error _ => false) ||
    isNonPushdownRootValue kv.2

/-- Resource/state invariant of the Tigris iterator: while the iterator is
open the underlying cursor has never been closed, and it is never closed
more than once. -/
def iterInv (it : QueryIterator) : Prop :=
  (it.iter.isSome → it.closeCalls = 0) ∧ it.closeCalls ≤ 1

/-- A concrete instantiation of the `pjson` codec (the compiler only
threads these strings through, so any instantiation works for evaluation). -/
def sampleCompilerEnv : CompilerEnv :=
  { marshalSingleValue := fun v =>
      match v with
      | .int32 n => toString n
      | .int64 n => toString n
      | .string s => "\"" ++ s ++ "\""
      | .bool b => toString b
      | _ => "?"
    getTypeOfValue := fun v =>
      match v with
      | .int32 _ => "int"
      | .int64 _ => "long"
      | .string _ => "string"
      | .bool _ => "bool"
      | .double _ => "double"
      | .objectID _ => "objectId"
      | .datetime _ => "date"
      | _ => "?" }

/-- A concrete `tjson` instantiation where every raw record decodes under
every schema. -/
def sampleTigrisEnv : TigrisEnv :=
  { unmarshal := fun d _ => .ok [("v", .int64 (Int.ofNat d))]
    refreshSchema := (some 0, none) }

/-- A concrete `tjson` instantiation with a stale cached schema: decoding
succeeds only under schema `some 1`, which is what a refresh returns. -/
def staleSchemaEnv : TigrisEnv :=
  { unmarshal := fun d s =>
      match s with
      | some 1 => .ok [("v", .int64 (Int.ofNat d))]
      | _ => .error 7
    refreshSchema := (some 1, none) }

/-- A concrete pg environment whose target collection does not exist. -/
def samplePgEnv : PgEnv :=
  { collectionExists := .ok false
    getTableName := .error .tableNotExist
    executeExplain := fun _ _ => .error (.backend 0)
    executeQuery := fun _ _ => .ok []
    compilerEnv := sampleCompilerEnv }

/-- Concrete query parameters (empty filter). -/
def sampleQueryParams : QueryParams :=
  { filter := [], db := "testdb", collection := "testcoll",
    comment := "", explain := false }

/-! ## Shared lemmas -/

/-- `NewPathFromString` only fails with the "empty key" code. -/
theorem newPathFromString_error_code {s : String} {pe : DocumentPathError}
    (h : NewPathFromString s = .error pe) : pe = { code := .emptyKey } := by
  simp only [NewPathFromString] at h
  split at h
  · injection h with h'
    exact h'.symm
  · simp at h

/-- A closed iterator's `Next` reports `ErrIteratorDone` and leaves the state
unchanged, whatever the context error is. -/
theorem next_of_closed (env : TigrisEnv) (c : Option CtxError)
    (it : QueryIterator) (h : it.iter = none) :
    (QueryIterator.Next env c it).res = .error .iteratorDone ∧
      (QueryIterator.Next env c it).state = it := by
  simp [QueryIterator.Next, h]

/-- `close` always leaves the iterator in the Closed state. -/
theorem close_iter_none (it : QueryIterator) : it.close.iter = none := by
  cases hit : it.iter <;> simp [QueryIterator.close, hit]

/-- `close` is idempotent on states. -/
theorem close_close (it : QueryIterator) : it.close.close = it.close := by
  cases hit : it.iter <;> simp [QueryIterator.close, hit]

/-- `close` preserves the resource invariant. -/
theorem iterInv_close {it : QueryIterator} (h : iterInv it) :
    iterInv it.close := by
  obtain ⟨h1, h2⟩ := h
  cases hit : it.iter with
  | none =>
    have hst : it.close = it := by simp [QueryIterator.close, hit]
    rw [hst]
    exact ⟨h1, h2⟩
  | some di =>
    have hz : it.closeCalls = 0 := h1 (by rw [hit]; rfl)
    have hst : it.close = ⟨it.schema, none, it.closeCalls + 1⟩ := by
      simp [QueryIterator.close, hit]
    rw [hst]
    refine And.intro (fun hs => by simp at hs) ?_
    show it.closeCalls + 1 ≤ 1
    omega

/-- `Next` preserves the resource invariant. -/
theorem iterInv_next (env : TigrisEnv) (c : Option CtxError)
    {it : QueryIterator} (h : iterInv it) :
    iterInv (QueryIterator.Next env c it).state := by
  have hII : iterInv it := h
  obtain ⟨h1, h2⟩ := h
  cases hit : it.iter with
  | none =>
    rw [(next_of_closed env c it hit).2]
    exact hII
  | some di =>
    have hz : it.closeCalls = 0 := h1 (by rw [hit]; rfl)
    cases c with
    | some e =>
      have hst : (QueryIterator.Next env (some e) it).state = it := by
        simp [QueryIterator.Next, hit]
      rw [hst]
      exact hII
    | none =>
      cases hdocs : di.docs with
      | nil =>
        cases herr : di.err with
        | some e =>
          cases hinv : e.invalidArg with
          | true =>
            have hst : (QueryIterator.Next env none it).state = it.close := by
              simp [QueryIterator.Next, hit, hdocs, herr, hinv]
            rw [hst]
            exact iterInv_close hII
          | false =>
            have hst : (QueryIterator.Next env none it).state = it := by
              simp [QueryIterator.Next, hit, hdocs, herr, hinv]
            rw [hst]
            exact hII
        | none =>
          have hst : (QueryIterator.Next env none it).state = it.close := by
            simp [QueryIterator.Next, hit, hdocs, herr]
          rw [hst]
          exact iterInv_close hII
      | cons d rest =>
        have hopen : ∀ s : TjsonSchema,
            iterInv ⟨s, some ⟨rest, di.err⟩, it.closeCalls⟩ := by
          intro s
          refine And.intro (fun _ => hz) ?_
          show it.closeCalls ≤ 1
          omega
        cases hum : env.unmarshal d it.schema with
        | ok doc =>
          have hst : (QueryIterator.Next env none it).state =
              ⟨it.schema, some ⟨rest, di.err⟩, it.closeCalls⟩ := by
            simp [QueryIterator.Next, hit, hdocs, hum]
          rw [hst]
          exact hopen it.schema
        | error e0 =>
          cases hre : env.refreshSchema with
          | mk s2 rerr =>
            cases rerr with
            | some er =>
              have hst : (QueryIterator.Next env none it).state =
                  ⟨s2, some ⟨rest, di.err⟩, it.closeCalls⟩ := by
                simp [QueryIterator.Next, hit, hdocs, hum, hre]
              rw [hst]
              exact hopen s2
            | none =>
              cases hum2 : env.unmarshal d s2 with
              | ok doc =>
                have hst : (QueryIterator.Next env none it).state =
                    ⟨s2, some ⟨rest, di.err⟩, it.closeCalls⟩ := by
                  simp [QueryIterator.Next, hit, hdocs, hum, hre, hum2]
                rw [hst]
                exact hopen s2
              | error e2 =>
                have hst : (QueryIterator.Next env none it).state =
                    ⟨s2, some ⟨rest, di.err⟩, it.closeCalls⟩ := by
                  simp [QueryIterator.Next, hit, hdocs, hum, hre, hum2]
                rw [hst]
                exact hopen s2

/-- Any sequence of `Next` / `Close` operations preserves the invariant. -/
theorem iterInv_applyOps {it : QueryIterator} (h : iterInv it)
    (ops : List IterOp) : iterInv (applyOps it ops) := by
  induction ops generalizing it with
  | nil => exact h
  | cons op rest ih =>
    have hstep : iterInv (applyOp it op) := by
      cases op with
      | next env c => exact iterInv_next env c h
      | close => exact iterInv_close h
    exact ih hstep

/-- A directly attached non-pushable value leaves the compile state
unchanged. -/
theorem processRootValue_nonPushdown (env : CompilerEnv) (st : CompileState)
    (key : String) {v : Value} (h : isNonPushdownRootValue v = true) :
    processRootValue env st key v = st := by
  cases v <;> simp_all [isNonPushdownRootValue, processRootValue]

/-- A skipped top-level entry contributes nothing: the root-loop step leaves
the accumulated predicates, arguments and placeholder state unchanged and
raises no error. -/
theorem processRootEntry_skipped (env : CompilerEnv) (st : CompileState)
    {kv : String × Value} (h : isSkippedEntry kv = true) :
    processRootEntry env st kv = .ok st := by
  obtain ⟨key, v⟩ := kv
  simp only [isSkippedEntry, Bool.or_eq_true] at h
  by_cases hd : startsWithDollar key
  · simp [processRootEntry, hd]
  · simp only [hd, Bool.false_eq_true, false_or] at h
    cases hp : NewPathFromString key with
    | ok path =>
      rcases h with h | h
      · rw [hp] at h
        simp only [decide_eq_true_eq] at h
        simp [processRootEntry, hd, hp, h]
      · by_cases hl : 1 < path.length
        · simp [processRootEntry, hd, hp, hl]
        · simp [processRootEntry, hd, hp, hl,
            processRootValue_nonPushdown env st key h]
    | error pe =>
      have hpe : pe = { code := .emptyKey } := newPathFromString_error_code hp
      rcases h with h | h
      · rw [hp] at h
        simp at h
      · simp [processRootEntry, hd, hp, hpe,
          processRootValue_nonPushdown env st key h]

/-- Dropping the skipped entries from a filter document does not change the
result of the root fold. -/
theorem foldlM_filter_skipped (env : CompilerEnv) (d : Document)
    (st : CompileState) :
    d.foldlM (processRootEntry env) st =
      (d.filter (fun kv => ! isSkippedEntry kv)).foldlM
        (processRootEntry env) st := by
  induction d generalizing st with
  | nil => rfl
  | cons kv rest ih =>
    by_cases h : isSkippedEntry kv
    · rw [List.foldlM_cons, processRootEntry_skipped env st h]
      have hf : (kv :: rest).filter (fun kv => ! isSkippedEntry kv) =
          rest.filter (fun kv => ! isSkippedEntry kv) := by
        simp [List.filter_cons, h]
      rw [hf]
      exact ih st
    · have hf : (kv :: rest).filter (fun kv => ! isSkippedEntry kv) =
          kv :: rest.filter (fun kv => ! isSkippedEntry kv) := by
        simp [List.filter_cons, h]
      rw [hf, List.foldlM_cons, List.foldlM_cons]
      cases hres : processRootEntry env st kv with
      | error e => rfl
      | ok st' =>
        show rest.foldlM (processRootEntry env) st' = _
        exact ih st'

/-! ## Claim theorems -/

/-- C3: once the iterator is Closed (explicitly or by natural exhaustion),
every `Next()` call returns the "iteration done" signal and leaves the state
unchanged, for every context condition — including an already-cancelled or
expired context — because the closed-state check precedes the cancellation
check. -/
theorem closed_next_always_done (env : TigrisEnv) (c : Option CtxError)
    (it : QueryIterator) (h : it.iter = none) :
    (QueryIterator.Next env c it).res = .error .iteratorDone ∧
      (QueryIterator.Next env c it).state = it :=
  next_of_closed env c it h

/-- Witness for C3: a closed iterator with an already-cancelled context still
reports "iteration done". -/
theorem closed_next_always_done_witness :
    (QueryIterator.Next sampleTigrisEnv (some .canceled)
        ⟨some 0, none, 1⟩).res = .error .iteratorDone :=
  (closed_next_always_done sampleTigrisEnv (some .canceled) ⟨some 0, none, 1⟩
    rfl).1

/-- C4: when advancing the underlying cursor fails, an "invalid argument"
backend error makes `Next()` close the iterator and report "iteration done"
with no error, while any other backend error is returned wrapped with
call-site context (and the iterator is left as it was). -/
theorem advance_failure_dispatch (env : TigrisEnv) (it : QueryIterator)
    (di : DriverIterator) (e : DriverError)
    (hit : it.iter = some di) (hdocs : di.docs = []) (herr : di.err = some e) :
    (e.invalidArg = true →
      (QueryIterator.Next env none it).res = .error .iteratorDone ∧
        (QueryIterator.Next env none it).state = it.close ∧
        (QueryIterator.Next env none it).state.iter = none) ∧
    (e.invalidArg = false →
      (QueryIterator.Next env none it).res = .error (.lazy (.driver e)) ∧
        (QueryIterator.Next env none it).state = it) := by
  refine ⟨fun hinv => ?_, fun hinv => ?_⟩
  · refine ⟨?_, ?_, ?_⟩ <;>
      simp [QueryIterator.Next, hit, hdocs, herr, hinv, close_iter_none]
  · refine ⟨?_, ?_⟩ <;>
      simp [QueryIterator.Next, hit, hdocs, herr, hinv]

/-- Witness for C4: an invalid-argument advance failure yields "iteration
done" and a closed iterator. -/
theorem advance_failure_dispatch_witness :
    (QueryIterator.Next sampleTigrisEnv none
        (newQueryIterator (some 0) ⟨[], some ⟨5, true⟩⟩)).res =
      .error .iteratorDone ∧
    (QueryIterator.Next sampleTigrisEnv none
        (newQueryIterator (some 0) ⟨[], some ⟨5, true⟩⟩)).state.iter = none := by
  have h := (advance_failure_dispatch sampleTigrisEnv
    (newQueryIterator (some 0) ⟨[], some ⟨5, true⟩⟩)
    ⟨[], some ⟨5, true⟩⟩ ⟨5, true⟩ rfl rfl rfl).1 rfl
  exact ⟨h.1, h.2.2⟩

/-- C2 (code-behaviour record): the Go `Next` returns `struct{}{}` — carrying
no iteration counter — as its first component.  On an iterator over two
decodable records, two successive successful `Next()` calls both return the
empty first component, so the first components are equal instead of being
the strictly increasing indices 0, 1 promised by the function's own doc
comment. -/
theorem next_first_component_not_counter :
    (QueryIterator.Next sampleTigrisEnv none
        (newQueryIterator (some 0) ⟨[10, 20], none⟩)).res =
      .ok ((), [("v", .int64 10)]) ∧
    (QueryIterator.Next sampleTigrisEnv none
        (QueryIterator.Next sampleTigrisEnv none
            (newQueryIterator (some 0) ⟨[10, 20], none⟩)).state).res =
      .ok ((), [("v", .int64 20)]) ∧
    (QueryIterator.Next sampleTigrisEnv none
        (newQueryIterator (some 0) ⟨[10, 20], none⟩)).res.toOption.map
        Prod.fst =
      (QueryIterator.Next sampleTigrisEnv none
          (QueryIterator.Next sampleTigrisEnv none
              (newQueryIterator (some 0) ⟨[10, 20], none⟩)).state).res.toOption.map
        Prod.fst :=
  ⟨rfl, rfl, rfl⟩

/-- C9: across any sequence of `Next`/`Close` operations on a fresh iterator
the underlying cursor handle is released at most once; a second `Close()` is
a no-op; and `Next()` after `Close()` always reports "iteration done". -/
theorem close_idempotent_single_release (schema : TjsonSchema)
    (titer : DriverIterator) (ops : List IterOp) (env : TigrisEnv)
    (c : Option CtxError) :
    (applyOps (newQueryIterator schema titer) ops).closeCalls ≤ 1 ∧
    (applyOps (newQueryIterator schema titer) ops).Close.Close =
      (applyOps (newQueryIterator schema titer) ops).Close ∧
    (QueryIterator.Next env c
        (applyOps (newQueryIterator schema titer) ops).Close).res =
      .error .iteratorDone := by
  have hinv : iterInv (applyOps (newQueryIterator schema titer) ops) :=
    iterInv_applyOps ⟨fun _ => rfl, Nat.zero_le 1⟩ ops
  refine ⟨hinv.2, close_close _, ?_⟩
  exact (next_of_closed env c _ (close_iter_none _)).1

/-- C5: when decoding a fetched record with the cached schema fails, `Next`
refreshes the schema exactly once and performs at most one retry decode (at
most two decodes in total, never a third); a successful retry returns the
document with the refreshed schema cached, while a refresh failure or a
second decode failure is returned as a wrapped fatal error. -/
theorem schema_retry_bound (env : TigrisEnv) (it : QueryIterator)
    (di : DriverIterator) (d : DriverDocument) (rest : List DriverDocument)
    (e0 : Nat)
    (hit : it.iter = some di) (hdocs : di.docs = d :: rest)
    (hfail : env.unmarshal d it.schema = .error e0) :
    (QueryIterator.Next env none it).refreshes = 1 ∧
    (QueryIterator.Next env none it).decodes ≤ 2 ∧
    (∀ s2 doc, env.refreshSchema = (s2, none) →
      env.unmarshal d s2 = .ok doc →
      (QueryIterator.Next env none it).res = .ok ((), doc) ∧
        (QueryIterator.Next env none it).decodes = 2 ∧
        (QueryIterator.Next env none it).state.schema = s2) ∧
    (∀ s2 er, env.refreshSchema = (s2, some er) →
      (QueryIterator.Next env none it).res = .error (.lazy (.refresh er)) ∧
        (QueryIterator.Next env none it).decodes = 1) ∧
    (∀ s2 e2, env.refreshSchema = (s2, none) →
      env.unmarshal d s2 = .error e2 →
      (QueryIterator.Next env none it).res = .error (.lazy (.unmarshal e2)) ∧
        (QueryIterator.Next env none it).decodes = 2) := by
  rcases hre : env.refreshSchema with ⟨s2, rerr⟩
  cases rerr with
  | some er =>
    have hout : QueryIterator.Next env none it =
        ⟨⟨s2, some ⟨rest, di.err⟩, it.closeCalls⟩,
          .error (.lazy (.refresh er)), 1, 1⟩ := by
      simp [QueryIterator.Next, hit, hdocs, hfail, hre]
    rw [hout]
    refine ⟨rfl, by show (1 : Nat) ≤ 2; decide, ?_, ?_, ?_⟩
    · intro s2' doc h1 _
      simp at h1
    · intro s2' er' h1
      simp only [Prod.mk.injEq, Option.some.injEq] at h1
      exact ⟨by rw [← h1.2], rfl⟩
    · intro s2' e2 h1 _
      simp at h1
  | none =>
    cases hum2 : env.unmarshal d s2 with
    | ok doc0 =>
      have hout : QueryIterator.Next env none it =
          ⟨⟨s2, some ⟨rest, di.err⟩, it.closeCalls⟩,
            .ok ((), doc0), 2, 1⟩ := by
        simp [QueryIterator.Next, hit, hdocs, hfail, hre, hum2]
      rw [hout]
      refine ⟨rfl, by show (2 : Nat) ≤ 2; decide, ?_, ?_, ?_⟩
      · intro s2' doc h1 h2
        simp only [Prod.mk.injEq, and_true] at h1
        subst h1
        rw [hum2] at h2
        injection h2 with h2
        exact ⟨by rw [← h2], rfl, rfl⟩
      · intro s2' er' h1
        simp at h1
      · intro s2' e2 h1 h2
        simp only [Prod.mk.injEq, and_true] at h1
        subst h1
        rw [hum2] at h2
        simp at h2
    | error e2' =>
      have hout : QueryIterator.Next env none it =
          ⟨⟨s2, some ⟨rest, di.err⟩, it.closeCalls⟩,
            .error (.lazy (.unmarshal e2')), 2, 1⟩ := by
        simp [QueryIterator.Next, hit, hdocs, hfail, hre, hum2]
      rw [hout]
      refine ⟨rfl, by show (2 : Nat) ≤ 2; decide, ?_, ?_, ?_⟩
      · intro s2' doc h1 h2
        simp only [Prod.mk.injEq, and_true] at h1
        subst h1
        rw [hum2] at h2
        simp at h2
      · intro s2' er' h1
        simp at h1
      · intro s2' e2 h1 h2
        simp only [Prod.mk.injEq, and_true] at h1
        subst h1
        rw [hum2] at h2
        injection h2 with h2
        exact ⟨by rw [← h2], rfl⟩

/-- Witness for C5: with a stale cached schema the first decode fails, one
refresh and one retry succeed, and the document is returned with two decode
attempts and one refresh. -/
theorem schema_retry_bound_witness :
    (QueryIterator.Next staleSchemaEnv none
        (newQueryIterator (some 0) ⟨[3], none⟩)).res =
      .ok ((), [("v", .int64 3)]) ∧
    (QueryIterator.Next staleSchemaEnv none
        (newQueryIterator (some 0) ⟨[3], none⟩)).decodes = 2 ∧
    (QueryIterator.Next staleSchemaEnv none
        (newQueryIterator (some 0) ⟨[3], none⟩)).refreshes = 1 := by
  have h := schema_retry_bound staleSchemaEnv
    (newQueryIterator (some 0) ⟨[3], none⟩) ⟨[3], none⟩ 3 [] 7 rfl rfl rfl
  have h3 := h.2.2.1 (some 1) [("v", .int64 3)] rfl rfl
  exact ⟨h3.1, h3.2.1, h.1⟩

/-- C1 counterexample: the filter with the single entry `"" : int32 42` —
whose key fails path parsing with the "empty key" error — compiles to a
non-empty predicate fragment with two arguments, not to the empty fragment
that "is skipped: contributes no predicate and no arguments" demands. -/
theorem empty_key_entry_counterexample :
    prepareWhereClause sampleCompilerEnv [("", .int32 42)] =
      .ok (" WHERE _jsonb->$1 @> $2", ["", "42"]) ∧
    prepareWhereClause sampleCompilerEnv [("", .int32 42)] ≠ .ok ("", []) := by
  have h1 : prepareWhereClause sampleCompilerEnv [("", .int32 42)] =
      .ok (" WHERE _jsonb->$1 @> $2", ["", "42"]) := rfl
  refine ⟨h1, ?_⟩
  rw [h1]
  intro hcon
  injection hcon with h2
  have h3 : (["", "42"] : List String) = [] := congrArg Prod.snd h2
  exact absurd h3 (by simp)

/-- C1 (amended): a top-level entry whose key fails path parsing with the
"empty key" error is not skipped — the error is ignored, compilation does
not fail, and the entry falls through to the value switch exactly like a
valid single-segment key, so it may contribute a predicate and arguments. -/
theorem empty_key_entry_processed (env : CompilerEnv) (st : CompileState)
    (key : String) (v : Value)
    (hd : startsWithDollar key = false)
    (hp : NewPathFromString key = .error { code := .emptyKey }) :
    processRootEntry env st (key, v) = .ok (processRootValue env st key v) := by
  simp [processRootEntry, hd, hp]

/-- Witness for amended C1: the empty key with an attached int32 value is
processed (and, being a pushdown scalar, contributes a predicate). -/
theorem empty_key_entry_processed_witness :
    processRootEntry sampleCompilerEnv ⟨[], [], {}⟩ ("", .int32 42) =
      .ok (processRootValue sampleCompilerEnv ⟨[], [], {}⟩ "" (.int32 42)) :=
  empty_key_entry_processed sampleCompilerEnv ⟨[], [], {}⟩ "" (.int32 42)
    rfl rfl

/-- C6: the compiled fragment contains no sub-expression for any skipped
top-level entry — a directive key (leading `$`), a key parsing to a dotted
path of more than one segment, or a direct value among array, binary, null,
regex and backend timestamp: dropping all such entries from the filter
leaves the compiled predicate text and argument list unchanged. -/
theorem skipped_entries_contribute_nothing (env : CompilerEnv)
    (d : Document) :
    prepareWhereClause env d =
      prepareWhereClause env (d.filter (fun kv => ! isSkippedEntry kv)) := by
  unfold prepareWhereClause
  rw [← foldlM_filter_skipped]

/-- C7: `$ne` with a pushdown-eligible scalar appends exactly one negated
compound predicate conjoining (a) key existence, (b) containment equality of
the encoded value, and (c) equality of the stored type tag with the filter
value's type tag, plus the two positional arguments (key, encoded value). -/
theorem ne_pushdown_scalar_predicate (env : CompilerEnv) (rootKey : String)
    (st : CompileState) (v : Value) (h : isPushdownScalar v = true) :
    processOperatorEntry env rootKey st "$ne" v =
      { filters := st.filters ++
          ["NOT ( _jsonb ? " ++ ("$" ++ toString st.p.counter) ++
            " AND _jsonb->" ++ ("$" ++ toString st.p.counter) ++ " @> " ++
            ("$" ++ toString (st.p.counter + 1)) ++
            " AND _jsonb->\x27$s\x27->\x27p\x27->" ++
            ("$" ++ toString st.p.counter) ++
            "->\x27t\x27 = \x27\"" ++ env.getTypeOfValue v ++ "\"\x27 )"]
        args := st.args ++ [rootKey, env.marshalSingleValue v]
        p := { counter := st.p.counter + 1 + 1 } } := by
  cases v <;> first | rfl | simp [isPushdownScalar] at h

/-- Witness for C7: `{v: {$ne: 42}}` with `int32 42`. -/
theorem ne_pushdown_scalar_predicate_witness :
    isPushdownScalar (.int32 42) = true ∧
    processOperatorEntry sampleCompilerEnv "v" ⟨[], [], {}⟩ "$ne"
        (.int32 42) =
      { filters :=
          ["NOT ( _jsonb ? $1 AND _jsonb->$1 @> $2 AND _jsonb->\x27$s\x27->\x27p\x27->$1->\x27t\x27 = \x27\"int\"\x27 )"]
        args := ["v", "42"]
        p := { counter := 3 } } :=
  ⟨rfl,
    (ne_pushdown_scalar_predicate sampleCompilerEnv "v" ⟨[], [], {}⟩
      (.int32 42) rfl).trans (by decide)⟩

/-- C8: when the table-name lookup reports that the collection does not
exist, `QueryDocuments` returns the already-exhausted iterator together with
a nil error, and that iterator's `Next` immediately reports exhaustion. -/
theorem query_documents_missing_collection (env : PgEnv) (qp : QueryParams)
    (e : PgError) (htab : env.getTableName = .error e)
    (hnot : e.isTableNotExist = true) :
    QueryDocuments env qp = .ok (newIterator none) ∧
      ∀ idx, (newIterator none).Next idx = .error .iteratorDone := by
  refine ⟨?_, fun idx => rfl⟩
  simp [QueryDocuments, htab, hnot]

/-- Witness for C8: a lookup failing with `ErrTableNotExist`. -/
theorem query_documents_missing_collection_witness :
    QueryDocuments samplePgEnv sampleQueryParams = .ok (newIterator none) ∧
      (newIterator none).Next 0 = .error .iteratorDone := by
  have h := query_documents_missing_collection samplePgEnv sampleQueryParams
    .tableNotExist rfl rfl
  exact ⟨h.1, h.2 0⟩

/-- C10: `Explain`, unlike `QueryDocuments`, treats a nonexistent target
collection as a fault: it returns the wrapped table-not-exist error and
hence no plan document. -/
theorem explain_missing_collection (env : PgEnv) (qp : QueryParams)
    (h : env.collectionExists = .ok false) :
    Explain env qp = .error (.lazy .tableNotExist) := by
  simp [Explain, h]

/-- Witness for C10: an environment whose existence check reports false. -/
theorem explain_missing_collection_witness :
    Explain samplePgEnv sampleQueryParams = .error (.lazy .tableNotExist) :=
  explain_missing_collection samplePgEnv sampleQueryParams rfl
